import Mathlib

/-!
Verification of the `async-lock` crate (`src/lib.rs`): a reference-counted
asynchronous mutual-exclusion lock.  The Rust source is shallowly embedded:
the shared state block `Inner<T>` becomes a Lean structure, the heap of
`Arc`-allocated blocks becomes an explicit `Heap` threaded through every
operation, and each Rust function (`Lock::new`, `Lock::clone`,
`Lock::try_lock`, `Drop for LockGuard`, `Debug for Lock`,
`LockGuard::source`) becomes a Lean function on that heap.  The suspending
`Lock::lock` loop is embedded twice: as an event-trace transliteration
(`lockEvents`) and as a small-step transition system (`FairStep`) in which
the environment models other tasks.  A ghost event log on the heap records
the order of the atomic operations so that ordering claims are statable.
-/

namespace AsyncLock

/-- Notification primitive (the `event_listener::Event` collaborator,
modelled by its contract in spec section 4.3): the number of currently
registered listeners. -/
structure Event where
  waiters : Nat
deriving Repr, DecidableEq

/-- `Event::new()`. -/
def Event.new : Event := ⟨0⟩

/-- `Event::listen()`: register one more listener. -/
def Event.listen (e : Event) : Event := ⟨e.waiters + 1⟩

/-- `Event::notify_one()`: wake one registered listener if any; a no-op
otherwise.  Returns whether a listener was woken. -/
def Event.notifyOne (e : Event) : Bool × Event :=
  if 0 < e.waiters then (true, ⟨e.waiters - 1⟩) else (false, e)

/-- The shared state block `Inner<T>` from the source: the atomic `locked`
flag, the `lock_ops` event, and the protected value `data`. -/
structure Inner (T : Type) where
  locked : Bool
  lock_ops : Event
  data : T

/-- Ghost trace entries recording every atomic operation a lock operation
performs, in order.  `casLocked prev` is the compare-and-swap of `locked`
from `false` to `true` (recording the previous value), `storeLocked b` the
plain store, `notifyOne woken` a `notify_one` call (recording whether a
waiter was woken). -/
inductive Evt
  | casLocked (prev : Bool)
  | storeLocked (b : Bool)
  | notifyOne (woken : Bool)
deriving Repr, DecidableEq

/-- Pointwise update of a function heap. -/
def upd {β : Type} (f : Nat → β) (i : Nat) (v : β) : Nat → β :=
  fun j => if j = i then v else f j

/-- The heap of `Arc<Inner<T>>` blocks: block contents, reference counts,
the next fresh address, and the ghost event log. -/
structure Heap (T : Type) where
  blocks : Nat → Inner T
  refcount : Nat → Nat
  alloc : Nat
  log : List Evt

/-- A `Lock<T>` handle: an `Arc` reference to one shared block. -/
structure Lock (T : Type) where
  id : Nat
deriving Repr, DecidableEq

/-- A `LockGuard<T>`: owns its own `Lock` handle (the source stores
`LockGuard(Lock<T>)`). -/
structure LockGuard (T : Type) where
  lock : Lock T
deriving Repr, DecidableEq

variable {T : Type}

/-- `Lock::new(data)`: allocate a fresh block with `locked: false`,
`lock_ops: Event::new()`, `data`, at reference count 1. -/
def Lock.new (v : T) (h : Heap T) : Lock T × Heap T :=
  (⟨h.alloc⟩,
    { blocks := upd h.blocks h.alloc ⟨false, Event.new, v⟩
      refcount := upd h.refcount h.alloc 1
      alloc := h.alloc + 1
      log := h.log })

/-- `Clone for Lock`: `Lock(self.0.clone())` — another handle to the same
block; the `Arc` clone increments the block's reference count. -/
def Lock.clone (l : Lock T) (h : Heap T) : Lock T × Heap T :=
  (⟨l.id⟩, { h with refcount := upd h.refcount l.id (h.refcount l.id + 1) })

/-- `self.0.locked.compare_and_swap(false, true, Ordering::Acquire)`:
returns the previous value of the flag; sets it to `true` when it was
`false`.  (The Acquire ordering is a memory-visibility annotation with no
further content in this sequentially consistent embedding.) -/
def Heap.casLocked (h : Heap T) (i : Nat) : Bool × Heap T :=
  let b := h.blocks i
  let h' :=
    if b.locked = false then
      { h with blocks := upd h.blocks i { b with locked := true } }
    else h
  (b.locked, { h' with log := h'.log ++ [Evt.casLocked b.locked] })

/-- `Lock::try_lock`: CAS the flag; on success return
`Some(LockGuard(self.clone()))`, otherwise `None`.  Never suspends: it is a
total function with no suspension step. -/
def Lock.try_lock (l : Lock T) (h : Heap T) : Option (LockGuard T) × Heap T :=
  let (prev, h1) := h.casLocked l.id
  if !prev then
    let (l', h2) := Lock.clone l h1
    (some ⟨l'⟩, h2)
  else
    (none, h1)

/-- `(self.0).0.locked.store(false, Ordering::Release)`. -/
def Heap.storeLockedFalse (h : Heap T) (i : Nat) : Heap T :=
  let b := h.blocks i
  { h with
    blocks := upd h.blocks i { b with locked := false }
    log := h.log ++ [Evt.storeLocked false] }

/-- `(self.0).0.lock_ops.notify_one()`. -/
def Heap.notifyOneAt (h : Heap T) (i : Nat) : Heap T :=
  let b := h.blocks i
  let we := b.lock_ops.notifyOne
  { h with
    blocks := upd h.blocks i { b with lock_ops := we.2 }
    log := h.log ++ [Evt.notifyOne we.1] }

/-- `Drop for LockGuard`: store `false` into the flag, then `notify_one`;
afterwards Rust drops the guard's own `Lock` handle, decrementing the
block's reference count. -/
def LockGuard.drop (g : LockGuard T) (h : Heap T) : Heap T :=
  let i := g.lock.id
  let h1 := h.storeLockedFalse i
  let h2 := h1.notifyOneAt i
  { h2 with refcount := upd h2.refcount i (h2.refcount i - 1) }

/-- `Deref for LockGuard`: read the protected value. -/
def LockGuard.deref (g : LockGuard T) (h : Heap T) : T :=
  (h.blocks g.lock.id).data

/-- `LockGuard::source(guard)`: `&guard.0` — the handle the guard owns.
Pure: it takes no heap and so cannot change any lock state. -/
def LockGuard.source (g : LockGuard T) : Lock T := g.lock

/-- What `Debug for Lock` renders for the `data` field: either the
`<locked>` sentinel or the protected value. -/
inductive DebugOut (T : Type)
  | sentinel
  | value (v : T)
deriving Repr, DecidableEq

/-- `Debug for Lock`: `match self.try_lock()` — on `None` render the
`<locked>` sentinel, on `Some(guard)` render `&*guard`; the temporary
guard is dropped when the match arm ends. -/
def Lock.fmtDebug (l : Lock T) (h : Heap T) : DebugOut T × Heap T :=
  match Lock.try_lock l h with
  | (none, h1) => (DebugOut.sentinel, h1)
  | (some g, h1) => (DebugOut.value (g.deref h1), g.drop h1)

/-!
Transition system for the mutual-exclusion invariant (claim C1).  One
shared block is observed together with the ghost number of live guards.
Each step is the effect of one of the source operations on that block:
`Lock::try_lock` (a successful CAS creates one guard), `Event::listen`
inside `Lock::lock`, and `Drop for LockGuard` (which requires a live
guard to exist, since only a guard value can be dropped).
-/

/-- One block plus the ghost count of live guards for it. -/
structure MuState where
  locked : Bool
  guards : Nat
  waiters : Nat
deriving Repr, DecidableEq

/-- Effect of `Lock::try_lock` on the observed block: the CAS succeeds
exactly when the flag is clear, and a successful call brings one more live
guard into existence. -/
def muTryLock (s : MuState) : Option Unit × MuState :=
  if s.locked = false then
    (some (), { s with locked := true, guards := s.guards + 1 })
  else
    (none, s)

/-- Effect of `Drop for LockGuard`: clear the flag, wake one registered
waiter if any, and one fewer guard is live. -/
def muDrop (s : MuState) : MuState :=
  { locked := false
    guards := s.guards - 1
    waiters := s.waiters - (if 0 < s.waiters then 1 else 0) }

/-- Effect of `self.0.lock_ops.listen()` inside `Lock::lock`. -/
def muListen (s : MuState) : MuState :=
  { s with waiters := s.waiters + 1 }

/-- Interleaved steps of any number of tasks sharing the block. -/
inductive MuStep : MuState → MuState → Prop
  | tryLock (s : MuState) : MuStep s (muTryLock s).2
  | listen (s : MuState) : MuStep s (muListen s)
  | dropGuard (s : MuState) : 0 < s.guards → MuStep s (muDrop s)

/-- The state `Lock::new` creates: flag clear, no guard, no waiter. -/
def muInit : MuState := ⟨false, 0, 0⟩

/-- States reachable from a freshly constructed lock. -/
def MuReachable (s : MuState) : Prop :=
  Relation.ReflTransGen MuStep muInit s

/-!
Transition system for the fairness claim (C2).  One distinguished waiter A
runs `Lock::lock` exactly as written in the source — test, listen, re-test,
suspend, restart — while the environment models the holder and arbitrarily
many newly arriving tasks.  `served` counts completed acquire/release
cycles of tasks that arrived after A started waiting.  The program counter
of A has one position per suspension-free segment of the loop body.
-/

/-- Program counter of waiter A inside `Lock::lock`: `p0` at the top of the
loop (about to `try_lock`), `p1` after a failed first try (about to
`listen`), `p2` registered (about to re-try), `p3` suspended on the
listener, `fin` returned with the guard. -/
inductive WPhase
  | p0
  | p1
  | p2
  | p3
  | fin
deriving Repr, DecidableEq

/-- Global state for the fairness system: the flag, whether the
environment task currently holds the lock, A's program counter, whether
A's listener has been notified, and how many tasks that arrived after A
have already been served. -/
structure FairState where
  locked : Bool
  envHolds : Bool
  aPhase : WPhase
  aWoken : Bool
  served : Nat
deriving Repr, DecidableEq

/-- Interleaved small steps: A executes `Lock::lock` exactly as the source
writes it, and the environment acquires by `try_lock` and releases by
dropping its guard (which notifies A's listener when registered). -/
inductive FairStep : FairState → FairState → Prop
  | aTry0Succ (s : FairState) : s.aPhase = WPhase.p0 → s.locked = false →
      FairStep s { s with locked := true, aPhase := WPhase.fin }
  | aTry0Fail (s : FairState) : s.aPhase = WPhase.p0 → s.locked = true →
      FairStep s { s with aPhase := WPhase.p1 }
  | aListen (s : FairState) : s.aPhase = WPhase.p1 →
      FairStep s { s with aPhase := WPhase.p2 }
  | aTry2Succ (s : FairState) : s.aPhase = WPhase.p2 → s.locked = false →
      FairStep s { s with locked := true, aPhase := WPhase.fin }
  | aTry2Fail (s : FairState) : s.aPhase = WPhase.p2 → s.locked = true →
      FairStep s { s with aPhase := WPhase.p3 }
  | aWake (s : FairState) : s.aPhase = WPhase.p3 → s.aWoken = true →
      FairStep s { s with aPhase := WPhase.p0, aWoken := false }
  | envAcquire (s : FairState) : s.locked = false →
      FairStep s { s with locked := true, envHolds := true }
  | envRelease (s : FairState) : s.envHolds = true →
      FairStep s
        { s with locked := false, envHolds := false
                 served := s.served + 1
                 aWoken := s.aWoken ||
                   (decide (s.aPhase = WPhase.p2) || decide (s.aPhase = WPhase.p3)) }

/-- A arrives at `Lock::lock` while the environment holds the lock. -/
def fairInit : FairState := ⟨true, true, WPhase.p0, false, 0⟩

/-!
Event-trace transliteration of `Lock::lock` (claim C3).  `avail i` is the
outcome of the i-th `compare_and_swap` this call performs (`true` when the
flag was observed clear), determined by how other tasks interleave; `fuel`
bounds the number of loop iterations so the transliteration is total, with
`none` meaning the call is still looping after `fuel` iterations.
-/

/-- Events one `Lock::lock` call emits: a `try_lock` attempt with its
outcome, registering a listener, and suspending on the listener. -/
inductive LEvt
  | tryA (success : Bool)
  | reg
  | susp
deriving Repr, DecidableEq

/-- Transliteration of the body of `Lock::lock`: try and return on
success; listen; try again and return on success; await the listener and
loop. -/
def lockEvents (avail : Nat → Bool) : Nat → Nat → Option (List LEvt)
  | 0, _ => none
  | fuel + 1, i =>
    if avail i then
      some [LEvt.tryA true]
    else if avail (i + 1) then
      some [LEvt.tryA false, LEvt.reg, LEvt.tryA true]
    else
      match lockEvents avail fuel (i + 2) with
      | none => none
      | some tr =>
          some ([LEvt.tryA false, LEvt.reg, LEvt.tryA false, LEvt.susp] ++ tr)

/-- The traces claim C3 mandates: zero or more full failed rounds
(failed try, register, failed re-try, suspend) followed by a successful
try, either immediately or right after registering. -/
inductive AcquirePattern : List LEvt → Prop
  | immediate : AcquirePattern [LEvt.tryA true]
  | afterReg : AcquirePattern [LEvt.tryA false, LEvt.reg, LEvt.tryA true]
  | around (tr : List LEvt) : AcquirePattern tr →
      AcquirePattern ([LEvt.tryA false, LEvt.reg, LEvt.tryA false, LEvt.susp] ++ tr)

/-!
Concrete fixtures used by the witness theorems.
-/

/-- An empty heap over `Nat` payloads. -/
def h0 : Heap Nat :=
  { blocks := fun _ => ⟨false, Event.new, 0⟩
    refcount := fun _ => 0
    alloc := 0
    log := [] }

/-- A handle freshly constructed with `Lock::new 7`. -/
def lNew : Lock Nat := (Lock.new 7 h0).1

/-- The heap after that construction. -/
def hNew : Heap Nat := (Lock.new 7 h0).2

/-- The heap after additionally acquiring through that handle. -/
def hHeld : Heap Nat := (Lock.try_lock lNew hNew).2

/-!
Helper lemmas shared by the claim theorems.
-/

theorem upd_same {β : Type} (f : Nat → β) (i : Nat) (v : β) : upd f i v i = v := by
  simp [upd]

theorem upd_other {β : Type} (f : Nat → β) (i j : Nat) (v : β) (h : j ≠ i) :
    upd f i v j = f j := by
  simp [upd, h]

/-- Full characterization of `Lock::try_lock` on an unheld block. -/
theorem try_lock_of_unheld (h : Heap T) (l : Lock T)
    (hf : (h.blocks l.id).locked = false) :
    Lock.try_lock l h =
      (some ⟨⟨l.id⟩⟩,
        { blocks := upd h.blocks l.id { h.blocks l.id with locked := true }
          refcount := upd h.refcount l.id (h.refcount l.id + 1)
          alloc := h.alloc
          log := h.log ++ [Evt.casLocked false] }) := by
  simp [Lock.try_lock, Heap.casLocked, Lock.clone, hf]

/-- Full characterization of `Lock::try_lock` on a held block. -/
theorem try_lock_of_held (h : Heap T) (l : Lock T)
    (ht : (h.blocks l.id).locked = true) :
    Lock.try_lock l h = (none, { h with log := h.log ++ [Evt.casLocked true] }) := by
  simp [Lock.try_lock, Heap.casLocked, ht]

theorem upd_upd {β : Type} (f : Nat → β) (i : Nat) (a b : β) :
    upd (upd f i a) i b = upd f i b := by
  funext j
  by_cases hj : j = i <;> simp [upd, hj]

/-- The new listener count after a `notify_one`: one fewer if any. -/
theorem notifyOne_waiters (e : Event) : (e.notifyOne).2.waiters = e.waiters - 1 := by
  by_cases hw : 0 < e.waiters
  · simp [Event.notifyOne, hw]
  · simp [Event.notifyOne, hw]
    omega

/-- `notify_one` reports a wake exactly when a listener was registered. -/
theorem notifyOne_woken (e : Event) : (e.notifyOne).1 = decide (0 < e.waiters) := by
  by_cases hw : 0 < e.waiters <;> simp [Event.notifyOne, hw]

/-- Full characterization of `Drop for LockGuard`. -/
theorem drop_eq (g : LockGuard T) (h : Heap T) :
    LockGuard.drop g h =
      { blocks := upd h.blocks g.lock.id
          { h.blocks g.lock.id with
            locked := false
            lock_ops := ((h.blocks g.lock.id).lock_ops.notifyOne).2 }
        refcount := upd h.refcount g.lock.id (h.refcount g.lock.id - 1)
        alloc := h.alloc
        log := h.log ++
          [Evt.storeLocked false,
           Evt.notifyOne ((h.blocks g.lock.id).lock_ops.notifyOne).1] } := by
  rcases h with ⟨bs, rc, al, lg⟩
  rcases g with ⟨⟨i⟩⟩
  simp only [LockGuard.drop, Heap.storeLockedFalse, Heap.notifyOneAt]
  simp [upd_same, upd_upd, List.append_assoc]

/-!
The claim theorems.
-/

/-- Claim C1: in every reachable state of a lock's shared block, the
`locked` flag is `true` iff exactly one live guard exists for that block,
hence at most one guard is live at any time, and `try_lock` returns `None`
exactly while a guard is live. -/
theorem c1_mutual_exclusion_invariant (s : MuState) (h : MuReachable s) :
    s.guards ≤ 1 ∧ (s.locked = true ↔ s.guards = 1) ∧
      ((muTryLock s).1 = none ↔ s.guards = 1) := by
  have key : s.guards ≤ 1 ∧ (s.locked = true ↔ s.guards = 1) := by
    induction h with
    | refl => simp [muInit]
    | @tail b c hab hbc ih =>
      rcases ih with ⟨ih1, ih2⟩
      cases hbc with
      | tryLock =>
        cases hl : b.locked with
        | false =>
          have hg0 : b.guards = 0 := by
            rcases Nat.lt_or_ge b.guards 1 with h1 | h1
            · omega
            · exact absurd (ih2.mpr (by omega)) (by simp [hl])
          simp [muTryLock, hl, hg0]
        | true =>
          simp [muTryLock, hl]
          exact ⟨ih1, ih2.mp hl⟩
      | listen =>
        simpa [muListen] using ⟨ih1, ih2⟩
      | dropGuard hg =>
        have hg1 : b.guards = 1 := by omega
        simp [muDrop, hg1]
  refine ⟨key.1, key.2, ?_⟩
  cases hl : s.locked with
  | false =>
    simp [muTryLock, hl]
    intro hg
    have := key.2.mpr hg
    simp [hl] at this
  | true =>
    simp [muTryLock, hl]
    exact key.2.mp hl

theorem c1_witness :
    MuReachable ⟨true, 1, 0⟩ ∧
      ((⟨true, 1, 0⟩ : MuState).guards ≤ 1 ∧
        ((⟨true, 1, 0⟩ : MuState).locked = true ↔ (⟨true, 1, 0⟩ : MuState).guards = 1) ∧
        ((muTryLock ⟨true, 1, 0⟩).1 = none ↔ (⟨true, 1, 0⟩ : MuState).guards = 1)) :=
  have hr : MuReachable ⟨true, 1, 0⟩ :=
    Relation.ReflTransGen.single (MuStep.tryLock muInit)
  ⟨hr, c1_mutual_exclusion_invariant ⟨true, 1, 0⟩ hr⟩

/-- Claim C4: `Lock::try_lock` test-and-sets the flag: when the flag was
clear it sets it, leaves the data untouched, and returns a guard for the
same block (whose `Arc` clone raises the reference count); when the flag
was set it returns `None` and leaves blocks, reference counts and the
allocator untouched.  It is a total function, hence never suspends; the
CAS is a single atomic step of the embedding. -/
theorem c4_try_lock_test_and_set (h : Heap T) (l : Lock T) :
    ((h.blocks l.id).locked = false →
      (Lock.try_lock l h).1 = some ⟨⟨l.id⟩⟩ ∧
      ((Lock.try_lock l h).2.blocks l.id).locked = true ∧
      ((Lock.try_lock l h).2.blocks l.id).data = (h.blocks l.id).data ∧
      (Lock.try_lock l h).2.refcount l.id = h.refcount l.id + 1) ∧
    ((h.blocks l.id).locked = true →
      (Lock.try_lock l h).1 = none ∧
      (Lock.try_lock l h).2.blocks = h.blocks ∧
      (Lock.try_lock l h).2.refcount = h.refcount ∧
      (Lock.try_lock l h).2.alloc = h.alloc) := by
  constructor
  · intro hf
    simp [try_lock_of_unheld h l hf, upd_same]
  · intro ht
    simp [try_lock_of_held h l ht]

theorem c4_witness :
    ((hNew.blocks lNew.id).locked = false ∧
      (Lock.try_lock lNew hNew).1 = some ⟨⟨lNew.id⟩⟩) ∧
    ((hHeld.blocks lNew.id).locked = true ∧
      (Lock.try_lock lNew hHeld).1 = none) :=
  ⟨⟨rfl, ((c4_try_lock_test_and_set hNew lNew).1 rfl).1⟩,
   ⟨rfl, ((c4_try_lock_test_and_set hHeld lNew).2 rfl).1⟩⟩

/-- Claim C5: dropping a guard first clears the `locked` flag (store of
`false`) and then calls `notify_one`, which wakes one registered waiter
and is a no-op when none is registered; the protected value is untouched.
The ghost log shows the store strictly before the `notify_one`.  Rust runs
`Drop::drop` on every disposal — explicit `drop`, scope exit, or unwind —
so this is the effect on each of those paths. -/
theorem c5_guard_release (g : LockGuard T) (h : Heap T) :
    ((LockGuard.drop g h).blocks g.lock.id).locked = false ∧
    ((LockGuard.drop g h).blocks g.lock.id).data = (h.blocks g.lock.id).data ∧
    ((LockGuard.drop g h).blocks g.lock.id).lock_ops.waiters
      = (h.blocks g.lock.id).lock_ops.waiters - 1 ∧
    (LockGuard.drop g h).log = h.log ++
      [Evt.storeLocked false,
       Evt.notifyOne (decide (0 < (h.blocks g.lock.id).lock_ops.waiters))] := by
  simp [drop_eq, upd_same, notifyOne_waiters, notifyOne_woken]

/-- Claim C6: the `Debug` rendering of a handle shows the protected value
when the lock is unheld and the `<locked>` sentinel when it is held, and
it leaves the flag as it found it; it is a total function built from
`try_lock` only, hence never suspends or deadlocks even while the lock is
held. -/
theorem c6_fmtDebug_probe (l : Lock T) (h : Heap T) :
    (Lock.fmtDebug l h).1 =
      (if (h.blocks l.id).locked then DebugOut.sentinel
       else DebugOut.value (h.blocks l.id).data) ∧
    ((Lock.fmtDebug l h).2.blocks l.id).locked = (h.blocks l.id).locked := by
  cases hl : (h.blocks l.id).locked with
  | false =>
    simp [Lock.fmtDebug, try_lock_of_unheld h l hl, LockGuard.deref, drop_eq,
      upd_same, upd_upd]
  | true =>
    simp [Lock.fmtDebug, try_lock_of_held h l hl, hl]

/-- Claim C7: `Lock::new(v)` allocates a fresh block with the flag clear,
no registered waiter, the protected value `v`, and reference count 1; a
first `try_lock` on the fresh handle therefore succeeds and the guard
dereferences to `v`. -/
theorem c7_new_fresh (v : T) (h : Heap T) :
    ((Lock.new v h).2.blocks (Lock.new v h).1.id).locked = false ∧
    ((Lock.new v h).2.blocks (Lock.new v h).1.id).data = v ∧
    ((Lock.new v h).2.blocks (Lock.new v h).1.id).lock_ops.waiters = 0 ∧
    (Lock.new v h).2.refcount (Lock.new v h).1.id = 1 ∧
    (Lock.try_lock (Lock.new v h).1 (Lock.new v h).2).1 = some ⟨⟨(Lock.new v h).1.id⟩⟩ ∧
    LockGuard.deref ⟨⟨(Lock.new v h).1.id⟩⟩
      (Lock.try_lock (Lock.new v h).1 (Lock.new v h).2).2 = v := by
  have hb : ((Lock.new v h).2.blocks (Lock.new v h).1.id) = ⟨false, Event.new, v⟩ := by
    simp [Lock.new, upd_same]
  have hf : ((Lock.new v h).2.blocks (Lock.new v h).1.id).locked = false := by
    rw [hb]
  refine ⟨hf, by rw [hb], by rw [hb]; rfl, by simp [Lock.new, upd_same], ?_, ?_⟩
  · simp [try_lock_of_unheld _ _ hf]
  · simp [try_lock_of_unheld _ _ hf, LockGuard.deref, upd_same, hb]

/-- Claim C8: cloning a handle returns a handle with the same block id,
changes no block and allocates nothing, and only raises that block's
reference count by one; it is a total function returning a handle
unconditionally, hence never suspends or fails.  Consequently, while a
guard obtained through the original handle is live, `try_lock` through the
clone returns `None`. -/
theorem c8_clone_shares_block (l : Lock T) (h : Heap T) :
    (Lock.clone l h).1.id = l.id ∧
    (Lock.clone l h).2.blocks = h.blocks ∧
    (Lock.clone l h).2.alloc = h.alloc ∧
    (Lock.clone l h).2.refcount l.id = h.refcount l.id + 1 ∧
    ((h.blocks l.id).locked = false →
      (Lock.try_lock (Lock.clone l h).1
        (Lock.try_lock l (Lock.clone l h).2).2).1 = none) := by
  refine ⟨rfl, rfl, rfl, by simp [Lock.clone, upd_same], ?_⟩
  intro hf
  have hf2 : ((Lock.clone l h).2.blocks l.id).locked = false := hf
  have hstep := try_lock_of_unheld (Lock.clone l h).2 l hf2
  have hheld :
      ((Lock.try_lock l (Lock.clone l h).2).2.blocks ((Lock.clone l h).1).id).locked
        = true := by
    rw [hstep]
    simp [Lock.clone, upd_same]
  simp [try_lock_of_held _ _ hheld]

theorem c8_witness :
    (Lock.clone lNew hNew).1.id = lNew.id ∧
    (hNew.blocks lNew.id).locked = false ∧
    (Lock.try_lock (Lock.clone lNew hNew).1
      (Lock.try_lock lNew (Lock.clone lNew hNew).2).2).1 = none :=
  ⟨(c8_clone_shares_block lNew hNew).1, rfl,
    (c8_clone_shares_block lNew hNew).2.2.2.2 rfl⟩

/-- Claim C9: for a guard produced by an acquisition through handle `l`,
`LockGuard::source` returns a handle with the same block id as `l`.  It is
a pure projection of the guard — it takes no heap, so it cannot release
the lock or change any state. -/
theorem c9_source_same_block (l : Lock T) (h : Heap T) (g : LockGuard T)
    (hg : (Lock.try_lock l h).1 = some g) :
    LockGuard.source g = ⟨l.id⟩ ∧ (LockGuard.source g).id = l.id := by
  cases hl : (h.blocks l.id).locked with
  | false =>
    rw [try_lock_of_unheld h l hl] at hg
    cases hg
    exact ⟨rfl, rfl⟩
  | true =>
    rw [try_lock_of_held h l hl] at hg
    cases hg

theorem c9_witness :
    (Lock.try_lock lNew hNew).1 = some ⟨⟨lNew.id⟩⟩ ∧
    (LockGuard.source (⟨⟨lNew.id⟩⟩ : LockGuard Nat)).id = lNew.id :=
  ⟨rfl, (c9_source_same_block lNew hNew ⟨⟨lNew.id⟩⟩ rfl).2⟩

/-- Claim C10: rendering an unheld lock is not side-effect-free — the
formatter takes a transient guard via `try_lock`, so the flag is `true`
right after that internal `try_lock`, and dropping the transient guard
runs the release path, appending a `notify_one` call to the log even
though no acquirer entered a critical section; the flag ends up clear
again. -/
theorem c10_fmtDebug_side_effect (l : Lock T) (h : Heap T)
    (hu : (h.blocks l.id).locked = false) :
    ((Lock.try_lock l h).2.blocks l.id).locked = true ∧
    (Lock.fmtDebug l h).1 = DebugOut.value ((h.blocks l.id).data) ∧
    ((Lock.fmtDebug l h).2.blocks l.id).locked = false ∧
    (Lock.fmtDebug l h).2.log = h.log ++
      [Evt.casLocked false, Evt.storeLocked false,
       Evt.notifyOne (decide (0 < (h.blocks l.id).lock_ops.waiters))] := by
  have hstep := try_lock_of_unheld h l hu
  refine ⟨by rw [hstep]; simp [upd_same], ?_, ?_, ?_⟩ <;>
    simp [Lock.fmtDebug, hstep, LockGuard.deref, drop_eq, upd_same, upd_upd,
      notifyOne_woken, List.append_assoc]

/-- One full starvation cycle: A fails its first try, registers, fails its
re-try, suspends; the holder releases (serving nobody yet but waking A);
a newly arriving task wins the race before A runs; A wakes and is back at
the top of the loop, having gained nothing. -/
theorem fairStarveCycle (n : Nat) :
    Relation.ReflTransGen FairStep
      ⟨true, true, WPhase.p0, false, n⟩ ⟨true, true, WPhase.p0, false, n + 1⟩ := by
  refine Relation.ReflTransGen.head
    (FairStep.aTry0Fail ⟨true, true, WPhase.p0, false, n⟩ rfl rfl) ?_
  refine Relation.ReflTransGen.head
    (FairStep.aListen ⟨true, true, WPhase.p1, false, n⟩ rfl) ?_
  refine Relation.ReflTransGen.head
    (FairStep.aTry2Fail ⟨true, true, WPhase.p2, false, n⟩ rfl rfl) ?_
  refine Relation.ReflTransGen.head
    (FairStep.envRelease ⟨true, true, WPhase.p3, false, n⟩ rfl) ?_
  refine Relation.ReflTransGen.head
    (FairStep.envAcquire ⟨false, false, WPhase.p3, true, n + 1⟩ rfl) ?_
  exact Relation.ReflTransGen.single
    (FairStep.aWake ⟨true, true, WPhase.p3, true, n + 1⟩ rfl rfl)

/-- Claim C2 (refuted; the crate docs promise a 0.5 ms fairness
escalation, but `Lock::lock` as written carries no retry timer, queue
position, or handoff state at all): for every `n` there is an execution in
which waiter A, running `Lock::lock` from the start, is still not served
while `n` newly arriving requests have each acquired and released.  Since
`n` is arbitrary, no bounded threshold ever switches A to a fair handoff
path, and a woken waiter merely re-races (and can always lose) against new
arrivals. -/
theorem c2_no_fairness_escalation (n : Nat) :
    ∃ s : FairState, Relation.ReflTransGen FairStep fairInit s ∧
      s.served = n ∧ s.aPhase ≠ WPhase.fin := by
  refine ⟨⟨true, true, WPhase.p0, false, n⟩, ?_, rfl, by simp⟩
  induction n with
  | zero => exact Relation.ReflTransGen.refl
  | succ k ih => exact ih.trans (fairStarveCycle k)

/-- Claim C3: every terminating run of `Lock::lock` emits, for any
interleaving of the environment (any outcomes of its CAS attempts),
exactly zero or more rounds of (failed try, register, failed re-try,
suspend) followed by a final successful try, immediately or right after
registering — the mandated test, register, re-test, suspend order, never
a simplified suspend-then-retry. -/
theorem c3_lock_loop_shape (avail : Nat → Bool) (fuel i : Nat) (tr : List LEvt)
    (h : lockEvents avail fuel i = some tr) : AcquirePattern tr := by
  induction fuel generalizing i tr with
  | zero => simp [lockEvents] at h
  | succ k ih =>
    rw [lockEvents] at h
    cases h1 : avail i with
    | true =>
      rw [h1] at h
      simp at h
      rw [← h]
      exact AcquirePattern.immediate
    | false =>
      rw [h1] at h
      cases h2 : avail (i + 1) with
      | true =>
        rw [h2] at h
        simp at h
        rw [← h]
        exact AcquirePattern.afterReg
      | false =>
        rw [h2] at h
        simp at h
        cases hrec : lockEvents avail k (i + 2) with
        | none =>
          rw [hrec] at h
          simp at h
        | some tr2 =>
          rw [hrec] at h
          simp at h
          rw [← h]
          exact AcquirePattern.around tr2 (ih (i + 2) tr2 hrec)

theorem c3_witness :
    lockEvents (fun i => Nat.ble 2 i) 2 0 =
      some [LEvt.tryA false, LEvt.reg, LEvt.tryA false, LEvt.susp, LEvt.tryA true] ∧
    AcquirePattern [LEvt.tryA false, LEvt.reg, LEvt.tryA false, LEvt.susp, LEvt.tryA true] :=
  ⟨rfl, c3_lock_loop_shape (fun i => Nat.ble 2 i) 2 0 _ rfl⟩

theorem c10_witness :
    (hNew.blocks lNew.id).locked = false ∧
    ((Lock.try_lock lNew hNew).2.blocks lNew.id).locked = true ∧
    (Lock.fmtDebug lNew hNew).2.log = hNew.log ++
      [Evt.casLocked false, Evt.storeLocked false,
       Evt.notifyOne (decide (0 < (hNew.blocks lNew.id).lock_ops.waiters))] :=
  ⟨rfl, (c10_fmtDebug_side_effect lNew hNew rfl).1,
    (c10_fmtDebug_side_effect lNew hNew rfl).2.2.2⟩

end AsyncLock
